import Mathlib

/-!
Shallow embedding of the fadors_c99 validation harness, covering its two
entry points: `verify_coff.py` (the strict COFF-backend harness) and
`tests/test_asm_execution.py` (the lenient MASM harness).  External effects
(child-process exit statuses, artifact presence on disk, tools being
resolvable on the search path) are modelled as explicit world records; each
harness's control flow becomes a pure function on those records.
-/

namespace FadorsHarness

/-- The four pipeline stages, in their fixed order. -/
inductive StageKind
  | compile
  | assemble
  | link
  | execute
deriving DecidableEq, Repr

/-- Numeric position of a stage in the pipeline order
Compile < Assemble < Link < Execute. -/
def StageKind.idx : StageKind → Nat
  | .compile => 0
  | .assemble => 1
  | .link => 2
  | .execute => 3

/-! ## verify_coff.py -/

/-- Exit-code normalization from `verify_coff.py` lines 67-69:
`actual_code = res.returncode & 0xFFFFFFFF`, then
`if actual_code > 0x7FFFFFFF: actual_code -= 0x100000000`.
Python's `&` on arbitrary-precision ints agrees with the nonnegative
Euclidean remainder modulo 2^32. -/
def normalize (s : Int) : Int :=
  let m := s % 4294967296
  if m > 2147483647 then m - 4294967296 else m

/-- The per-test status strings appended to `results` in `verify_coff.py`:
"PASS", "FAIL (Comp)", "FAIL (EXE missing)", "FAIL (Got n)". -/
inductive CoffStatus
  | pass
  | failComp
  | failExeMissing
  | failGot (code : Int)
deriving DecidableEq, Repr

/-- External observations for one test of `verify_coff.py`: the compiler
process's return code, whether the expected executable artifact exists
afterwards, and the raw termination status of the produced executable. -/
structure CoffWorld where
  compExit : Int
  exeExists : Bool
  rawStatus : Int
deriving DecidableEq, Repr

/-- One iteration of the test loop of `verify_coff.py` (lines 46-80):
compile with `--obj`; a nonzero compiler return code is `FAIL (Comp)`;
a missing executable is `FAIL (EXE missing)`; otherwise the executable
runs and its normalized exit code is compared with the expected one.
The second component records which pipeline stages were invoked. -/
def coffRun (expected : Int) (w : CoffWorld) : CoffStatus × List StageKind :=
  if w.compExit ≠ 0 then
    (CoffStatus.failComp, [StageKind.compile])
  else if w.exeExists = false then
    (CoffStatus.failExeMissing, [StageKind.compile])
  else
    let actual := normalize w.rawStatus
    (if actual = expected then CoffStatus.pass else CoffStatus.failGot actual,
     [StageKind.compile, StageKind.execute])

/-- Final aggregation of `verify_coff.py` (lines 85-96): `all_pass` is
cleared by any status other than "PASS"; the process exits 0 when
`all_pass` holds and 1 otherwise. -/
def coffExit (sts : List CoffStatus) : Nat :=
  if sts.all (fun st => st == CoffStatus.pass) then 0 else 1

/-- Claim C1: for every raw status representable as an unsigned 32-bit
value, `normalize` lands in the signed 32-bit range, and on inputs already
in the signed 32-bit range `normalize` is the identity. -/
theorem normalize_range_and_identity :
    (∀ s : Int, 0 ≤ s → s < 4294967296 →
      -2147483648 ≤ normalize s ∧ normalize s ≤ 2147483647) ∧
    (∀ s : Int, -2147483648 ≤ s → s ≤ 2147483647 → normalize s = s) := by
  constructor
  · intro s _ _
    have h0 : 0 ≤ s % 4294967296 := Int.emod_nonneg s (by decide)
    have h1 : s % 4294967296 < 4294967296 := Int.emod_lt_of_pos s (by decide)
    simp only [normalize]
    split <;> omega
  · intro s hlo hhi
    have hmod : s % 4294967296 = if s < 0 then s + 4294967296 else s := by
      split <;> omega
    simp only [normalize]
    split <;> omega

/-- Witness for C1 at concrete inputs. -/
theorem normalize_range_and_identity_witness :
    (-2147483648 ≤ normalize 3221225477 ∧ normalize 3221225477 ≤ 2147483647) ∧
    normalize 42 = 42 :=
  ⟨normalize_range_and_identity.1 3221225477 (by decide) (by decide),
   normalize_range_and_identity.2 42 (by decide) (by decide)⟩

/-- Claim C2: raw status 0xC0000005 normalizes to -1073741819, which is
nonzero; and for every raw status with nonzero normalization, a test
expecting exit code 0 records "FAIL (Got n)" and never "PASS". -/
theorem crash_status_never_passes :
    normalize 3221225477 = -1073741819 ∧
    (∀ s : Int, normalize s ≠ 0 →
      (coffRun 0 { compExit := 0, exeExists := true, rawStatus := s }).1 =
        CoffStatus.failGot (normalize s) ∧
      (coffRun 0 { compExit := 0, exeExists := true, rawStatus := s }).1 ≠
        CoffStatus.pass) := by
  refine ⟨by decide, ?_⟩
  intro s h
  simp only [coffRun, ne_eq, not_true_eq_false, if_false, if_neg h]
  simp [h]

/-- Witness for C2 at the concrete crash status 0xC0000005. -/
theorem crash_status_never_passes_witness :
    (coffRun 0 { compExit := 0, exeExists := true, rawStatus := 3221225477 }).1 =
      CoffStatus.failGot (normalize 3221225477) ∧
    (coffRun 0 { compExit := 0, exeExists := true, rawStatus := 3221225477 }).1 ≠
      CoffStatus.pass :=
  crash_status_never_passes.2 3221225477 (by decide)

/-! ## tests/test_asm_execution.py -/

/-- External observations for one test of the lenient MASM harness
`tests/test_asm_execution.py`: the compiler's exit status (its raised
CalledProcessError is caught and ignored), whether the .asm artifact
exists afterwards, whether the assembler/linker binaries are resolvable
(an unresolvable binary raises FileNotFoundError), their exit statuses,
whether launching the produced executable raises an OSError, and the
executable's exit code. -/
structure AsmWorld where
  compilerExit : Int
  asmExists : Bool
  asmToolMissing : Bool
  asmExit : Int
  linkToolMissing : Bool
  linkExit : Int
  runOSError : Bool
  retCode : Int
deriving DecidableEq, Repr

/-- Whether `needle` occurs at the start of `hay` (character lists). -/
def startsWithChars : List Char → List Char → Bool
  | [], _ => true
  | _ :: _, [] => false
  | a :: as, b :: bs => a == b && startsWithChars as bs

/-- Whether `needle` occurs somewhere inside `hay`, Python's
`needle in hay` on strings. -/
def hasSub (needle : List Char) : List Char → Bool
  | [] => startsWithChars needle []
  | c :: cs => startsWithChars needle (c :: cs) || hasSub needle cs

/-- Python's `pat in hay` for strings. -/
def strContains (hay pat : String) : Bool :=
  hasSub pat.data hay.data

/-- The hard-coded expected-exit-code rules of `run_test` (lines 67-108):
each pair is (substring of the c file path, expected exit code). -/
def expectedRules : List (String × Int) :=
  [("01_return", 42), ("07_function", 123), ("17_for", 45), ("18_typedef", 42),
   ("19_array", 100), ("20_switch", 120), ("21_enum", 6), ("22_union", 42),
   ("23_pointer_math", 0)]

/-- The exit-code checks of `run_test` step 4: the test fails exactly when
some rule's substring occurs in the path and the exit code differs from
that rule's expected value. -/
def checkRules (cFile : String) (ret : Int) : Bool :=
  expectedRules.all (fun r => !(strContains cFile r.1) || ret == r.2)

/-- One call of `run_test` (lines 11-115).  `Except.ok b` is the Boolean
the Python function returns; `Except.error ()` is an exception escaping it
(only CalledProcessError is caught at the compile and link stages, so a
FileNotFoundError from the linker propagates).  The second component is
the list of stages whose tool invocation was attempted. -/
def runTest (cFile : String) (w : AsmWorld) : Except Unit Bool × List StageKind :=
  if w.asmExists = false then
    (Except.ok false, [StageKind.compile])
  else if w.asmToolMissing then
    (Except.ok true, [StageKind.compile, StageKind.assemble])
  else if w.asmExit ≠ 0 then
    (Except.ok false, [StageKind.compile, StageKind.assemble])
  else if w.linkToolMissing then
    (Except.error (), [StageKind.compile, StageKind.assemble, StageKind.link])
  else if w.linkExit ≠ 0 then
    (Except.ok false, [StageKind.compile, StageKind.assemble, StageKind.link])
  else if w.runOSError then
    (Except.ok false,
     [StageKind.compile, StageKind.assemble, StageKind.link, StageKind.execute])
  else
    (Except.ok (checkRules cFile w.retCode),
     [StageKind.compile, StageKind.assemble, StageKind.link, StageKind.execute])

/-- The whitelist of `main` (line 137). -/
def testWhitelist : List String :=
  ["01_return.c", "07_function.c", "11_nested_struct.c", "17_for.c",
   "18_typedef.c", "19_array.c", "20_switch.c", "21_enum.c", "22_union.c",
   "23_pointer_math.c"]

/-- The final exit status of the lenient harness (lines 144-146):
1 when `passed < total`, 0 otherwise. -/
def lenientExit (results : List Bool) : Nat :=
  if (results.filter (fun b => b)).length < results.length then 1 else 0

/-- The observable outcome of the lenient harness's `main`: aborted at
startup because the compiler is absent, crashed mid-run on an uncaught
exception (with the per-test results gathered so far), or finished with
all per-test results and a process exit status. -/
inductive MainResult
  | earlyAbort
  | crashed (done : List Bool)
  | finished (results : List Bool) (exitCode : Nat)
deriving DecidableEq, Repr

/-- The test loop of `main` (lines 138-146) over the already-selected
test files, accumulating `run_test` results. -/
def asmLoop : List (String × AsmWorld) → List Bool → MainResult
  | [], acc =>
    MainResult.finished acc.reverse (lenientExit acc.reverse)
  | t :: rest, acc =>
    match (runTest t.1 t.2).1 with
    | Except.error _ => MainResult.crashed acc.reverse
    | Except.ok b => asmLoop rest (b :: acc)

/-- `main` of the lenient harness (lines 117-146): exits 1 immediately
when the compiler path does not exist, otherwise runs every selected test. -/
def asmMain (compilerPresent : Bool) (tests : List (String × AsmWorld)) :
    MainResult :=
  if compilerPresent then asmLoop tests [] else MainResult.earlyAbort

/-! ## Environment bootstrapping (shared by both harnesses) -/

/-- Python's `line.split("=", 1)` together with its `"=" in line` guard:
`none` when the character list holds no `=`, otherwise the part before the
first `=` and everything after it. -/
def splitFirstEq : List Char → Option (List Char × List Char)
  | [] => none
  | c :: cs =>
    if c = '=' then some ([], cs)
    else
      match splitFirstEq cs with
      | none => none
      | some kv => some (c :: kv.1, kv.2)

/-- The process environment, a finite map from variable names to values. -/
def EnvMap : Type := List (String × String)

/-- Reading a variable from the environment. -/
def lookupEnv (env : EnvMap) (k : String) : Option String :=
  match List.find? (fun p => p.1 == k) env with
  | some p => some p.2
  | none => none

/-- `os.environ[key] = value`: bind `k` to `v`, overwriting any prior
binding of `k` and leaving every other binding untouched. -/
def setEnv (env : EnvMap) (k v : String) : EnvMap :=
  (k, v) :: List.filter (fun p => !(p.1 == k)) env

/-- Processing one line of the bootstrap command's output (lines 122-125
of the lenient harness, lines 35-38 of `verify_coff.py`): a line with an
`=` is split at the first `=` and merged; a line without one is ignored. -/
def mergeLine (env : EnvMap) (line : String) : EnvMap :=
  match splitFirstEq line.data with
  | none => env
  | some kv => setEnv env (String.mk kv.1) (String.mk kv.2)

/-- The bootstrap step: when the vcvars path exists its output lines are
merged in order; when it does not exist the environment is untouched. -/
def bootstrapEnv (pathExists : Bool) (lines : List String) (env : EnvMap) :
    EnvMap :=
  if pathExists then List.foldl mergeLine env lines else env

theorem splitFirstEq_eq_none {cs : List Char} :
    splitFirstEq cs = none ↔ '=' ∉ cs := by
  induction cs with
  | nil => simp [splitFirstEq]
  | cons c cs ih =>
    simp only [splitFirstEq, List.mem_cons]
    split
    · simp_all
    · cases h : splitFirstEq cs with
      | none => simp_all [eq_comm]
      | some kv => simp_all [eq_comm]

theorem splitFirstEq_append {k v : List Char} (hk : '=' ∉ k) :
    splitFirstEq (k ++ '=' :: v) = some (k, v) := by
  induction k with
  | nil => simp [splitFirstEq]
  | cons c cs ih =>
    simp only [List.mem_cons, not_or] at hk
    have hih : splitFirstEq (cs ++ '=' :: v) = some (cs, v) := ih hk.2
    simp only [List.cons_append, splitFirstEq, if_neg (Ne.symm hk.1),
      List.append_eq, hih]

theorem lookupEnv_setEnv_same (env : EnvMap) (k v : String) :
    lookupEnv (setEnv env k v) k = some v := by
  simp [lookupEnv, setEnv, List.find?]

theorem find?_filter_of_ne {env : EnvMap} {k k2 : String} (h : k2 ≠ k) :
    List.find? (fun p => p.1 == k2) (List.filter (fun p => !(p.1 == k)) env) =
      List.find? (fun p => p.1 == k2) env := by
  induction env with
  | nil => rfl
  | cons p env ih =>
    by_cases hp : p.1 = k
    · have h1 : (!(p.1 == k)) = false := by simp [hp]
      have h2 : (p.1 == k2) = false := beq_eq_false_iff_ne.mpr (hp ▸ Ne.symm h)
      simp [List.filter, List.find?, h1, h2, ih]
    · by_cases hq : p.1 = k2
      · have h1 : (!(p.1 == k)) = true := by simp [hp]
        have h2 : (p.1 == k2) = true := by simp [hq]
        simp [List.filter, List.find?, h1, h2]
      · have h1 : (!(p.1 == k)) = true := by simp [hp]
        have h2 : (p.1 == k2) = false := by simp [hq]
        simp [List.filter, List.find?, h1, h2, ih]

theorem lookupEnv_setEnv_other (env : EnvMap) (k v : String) (k2 : String)
    (h : k2 ≠ k) : lookupEnv (setEnv env k v) k2 = lookupEnv env k2 := by
  have hk : (k == k2) = false := by simp [Ne.symm h]
  simp only [lookupEnv, setEnv, List.find?, hk, find?_filter_of_ne h]

/-- Claim C8: the bootstrapper leaves the environment unmodified when the
bootstrap command path does not exist; a line without an `=` is ignored;
and a line `k=v` (first `=` after `k`) binds `k` to `v`, overwriting any
prior value of `k` and leaving every other variable's value unchanged. -/
theorem bootstrap_env_spec :
    (∀ (lines : List String) (env : EnvMap),
      bootstrapEnv false lines env = env) ∧
    (∀ (env : EnvMap) (line : String), '=' ∉ line.data →
      mergeLine env line = env) ∧
    (∀ (env : EnvMap) (k v : String), '=' ∉ k.data →
      lookupEnv (mergeLine env (k ++ "=" ++ v)) k = some v ∧
      ∀ k2, k2 ≠ k →
        lookupEnv (mergeLine env (k ++ "=" ++ v)) k2 = lookupEnv env k2) := by
  refine ⟨fun lines env => rfl, ?_, ?_⟩
  · intro env line h
    simp [mergeLine, splitFirstEq_eq_none.mpr h]
  · intro env k v hk
    have hdata : (k ++ "=" ++ v).data = k.data ++ '=' :: v.data := by
      simp [String.data_append]
    have hsplit : splitFirstEq (k ++ "=" ++ v).data = some (k.data, v.data) := by
      rw [hdata]; exact splitFirstEq_append hk
    have hmerge : mergeLine env (k ++ "=" ++ v) = setEnv env k v := by
      simp only [mergeLine, hdata, splitFirstEq_append hk]
    rw [hmerge]
    exact ⟨lookupEnv_setEnv_same env k v,
      fun k2 h2 => lookupEnv_setEnv_other env k v k2 h2⟩

/-- Witness for C8: path absent keeps a concrete environment; a line
without an `=` is ignored; "PATH=C:\\x" overwrites a prior PATH value
and leaves the variable LIB untouched. -/
theorem bootstrap_env_spec_witness :
    bootstrapEnv false ["A=1"] [("PATH", "p")] = [("PATH", "p")] ∧
    mergeLine [("PATH", "p")] "banner text" = [("PATH", "p")] ∧
    lookupEnv (mergeLine [("PATH", "p"), ("LIB", "l")]
      ("PATH" ++ "=" ++ "q")) "PATH" = some "q" ∧
    lookupEnv (mergeLine [("PATH", "p"), ("LIB", "l")]
      ("PATH" ++ "=" ++ "q")) "LIB" = lookupEnv [("PATH", "p"), ("LIB", "l")] "LIB" :=
  ⟨bootstrap_env_spec.1 ["A=1"] [("PATH", "p")],
   bootstrap_env_spec.2.1 [("PATH", "p")] "banner text" (by decide),
   (bootstrap_env_spec.2.2 [("PATH", "p"), ("LIB", "l")] "PATH" "q" (by decide)).1,
   (bootstrap_env_spec.2.2 [("PATH", "p"), ("LIB", "l")] "PATH" "q"
     (by decide)).2 "LIB" (by decide)⟩

/-! ## Helper lemmas -/

theorem runTest_skip (cFile : String) (w : AsmWorld)
    (h1 : w.asmExists = true) (h2 : w.asmToolMissing = true) :
    runTest cFile w = (Except.ok true, [StageKind.compile, StageKind.assemble]) := by
  simp [runTest, h1, h2]

theorem lenient_filter_lt (rs : List Bool) :
    ((rs.filter (fun b => b)).length < rs.length) ↔ ¬ (∀ b ∈ rs, b = true) := by
  induction rs with
  | nil => simp
  | cons b rs ih =>
    have hle : (rs.filter (fun b => b)).length ≤ rs.length :=
      (List.filter_sublist rs).length_le
    cases b
    · simp only [List.filter_cons, List.length_cons]
      simp
      omega
    · simp only [List.filter_cons, List.length_cons]
      simp [Nat.succ_lt_succ_iff, ih]

theorem asmLoop_all_skip (tests : List (String × AsmWorld)) (acc : List Bool)
    (h : ∀ t ∈ tests, t.2.asmExists = true ∧ t.2.asmToolMissing = true) :
    asmLoop tests acc =
      MainResult.finished (acc.reverse ++ tests.map fun _ => true)
        (lenientExit (acc.reverse ++ tests.map fun _ => true)) := by
  induction tests generalizing acc with
  | nil => simp [asmLoop]
  | cons t rest ih =>
    have ht := h t (List.mem_cons_self t rest)
    have hrt : (runTest t.1 t.2).1 = Except.ok true := by
      rw [runTest_skip t.1 t.2 ht.1 ht.2]
    simp only [asmLoop, hrt]
    rw [ih (true :: acc) (fun x hx => h x (List.mem_cons_of_mem t hx))]
    simp [List.reverse_cons, List.append_assoc]

/-! ## Claims C3, C4, C7 -/

/-- Counterexample to claim C3 as stated: in `verify_coff.py`, compile
success is decided by the compiler's exit status, not by artifact
presence — with identical artifacts on disk, flipping the compiler's exit
status from 0 to 1 flips the verdict from PASS to FAIL (Comp), and the
execute stage is not reached. -/
theorem coff_compile_decided_by_exit_status :
    (coffRun 42 { compExit := 1, exeExists := true, rawStatus := 42 }).1 =
      CoffStatus.failComp ∧
    (coffRun 42 { compExit := 1, exeExists := true, rawStatus := 42 }).2 =
      [StageKind.compile] ∧
    (coffRun 42 { compExit := 0, exeExists := true, rawStatus := 42 }).1 =
      CoffStatus.pass := by
  refine ⟨rfl, rfl, ?_⟩
  show (if normalize 42 = 42 then CoffStatus.pass else CoffStatus.failGot (normalize 42)) = CoffStatus.pass
  norm_num [normalize]

/-- Claim C3, amended to the lenient harness: `run_test`'s result is
independent of the compiler's own exit status, and whenever the assembly
artifact exists the pipeline continues to the assemble stage. -/
theorem asm_compile_artifact_based :
    ∀ (cFile : String) (w : AsmWorld) (e1 e2 : Int),
      runTest cFile { w with compilerExit := e1 } =
        runTest cFile { w with compilerExit := e2 } ∧
      (w.asmExists = true → StageKind.assemble ∈ (runTest cFile w).2) := by
  intro cFile w e1 e2
  refine ⟨rfl, ?_⟩
  intro h
  unfold runTest
  repeat' split
  all_goals simp_all

/-- Witness for the amended C3: a compiler exiting 1 with the artifact
present still reaches the assemble stage. -/
theorem asm_compile_artifact_based_witness :
    StageKind.assemble ∈
      (runTest "tests/01_return.c"
        { compilerExit := 1, asmExists := true, asmToolMissing := false,
          asmExit := 0, linkToolMissing := false, linkExit := 0,
          runOSError := false, retCode := 42 }).2 :=
  (asm_compile_artifact_based "tests/01_return.c"
    { compilerExit := 1, asmExists := true, asmToolMissing := false,
      asmExit := 0, linkToolMissing := false, linkExit := 0,
      runOSError := false, retCode := 42 } 1 1).2 rfl

/-- Counterexample to claim C4 as stated: an unresolvable linker does not
degrade the test to Skip — the FileNotFoundError is uncaught at the link
stage, so `run_test` ends in an exception that aborts the run. -/
theorem missing_linker_is_not_skip :
    (runTest "tests/01_return.c"
      { compilerExit := 0, asmExists := true, asmToolMissing := false,
        asmExit := 0, linkToolMissing := true, linkExit := 0,
        runOSError := false, retCode := 42 }).1 = Except.error () := rfl

/-- Claim C4, amended to the assemble stage: when the assembler binary is
unresolvable (and the assembly artifact exists), `run_test` returns True
(Skip counted as success), never False (Fail). -/
theorem assembler_missing_skips :
    ∀ (cFile : String) (w : AsmWorld),
      w.asmExists = true → w.asmToolMissing = true →
      (runTest cFile w).1 = Except.ok true ∧
      (runTest cFile w).1 ≠ Except.ok false := by
  intro cFile w h1 h2
  rw [runTest_skip cFile w h1 h2]
  exact ⟨rfl, by simp⟩

/-- Witness for the amended C4 at a concrete world. -/
theorem assembler_missing_skips_witness :
    (runTest "tests/19_array.c"
      { compilerExit := 0, asmExists := true, asmToolMissing := true,
        asmExit := 0, linkToolMissing := false, linkExit := 0,
        runOSError := false, retCode := 100 }).1 = Except.ok true ∧
    (runTest "tests/19_array.c"
      { compilerExit := 0, asmExists := true, asmToolMissing := true,
        asmExit := 0, linkToolMissing := false, linkExit := 0,
        runOSError := false, retCode := 100 }).1 ≠ Except.ok false :=
  assembler_missing_skips "tests/19_array.c"
    { compilerExit := 0, asmExists := true, asmToolMissing := true,
      asmExit := 0, linkToolMissing := false, linkExit := 0,
      runOSError := false, retCode := 100 } rfl rfl

/-- Counterexample to claim C7 as stated: an absent compiler is not the
only process-wide fatal condition — a run whose single test hits an
unresolvable linker crashes on the uncaught exception, producing no
result for that test. -/
theorem missing_linker_aborts_run :
    asmMain true [("tests/07_function.c",
      { compilerExit := 0, asmExists := true, asmToolMissing := false,
        asmExit := 0, linkToolMissing := true, linkExit := 0,
        runOSError := false, retCode := 123 })] = MainResult.crashed [] := rfl

/-- Claim C7, amended: an absent compiler aborts the lenient harness
before any tests execute with no per-test results; but it is not the only
fatal condition, since an unresolvable linker raises an uncaught
exception that aborts the remainder of the run. -/
theorem compiler_absent_aborts :
    (∀ tests : List (String × AsmWorld),
      asmMain false tests = MainResult.earlyAbort) ∧
    (∀ (cFile : String) (w : AsmWorld),
      w.asmExists = true → w.asmToolMissing = false → w.asmExit = 0 →
      w.linkToolMissing = true →
      (runTest cFile w).1 = Except.error ()) := by
  refine ⟨fun tests => rfl, ?_⟩
  intro cFile w h1 h2 h3 h4
  simp [runTest, h1, h2, h3, h4]

/-- Witness for the amended C7 at a concrete world. -/
theorem compiler_absent_aborts_witness :
    (runTest "tests/17_for.c"
      { compilerExit := 0, asmExists := true, asmToolMissing := false,
        asmExit := 0, linkToolMissing := true, linkExit := 0,
        runOSError := false, retCode := 45 }).1 = Except.error () :=
  compiler_absent_aborts.2 "tests/17_for.c"
    { compilerExit := 0, asmExists := true, asmToolMissing := false,
      asmExit := 0, linkToolMissing := true, linkExit := 0,
      runOSError := false, retCode := 45 } rfl rfl rfl rfl

/-! ## Claims C5, C6, C9, C10 -/

/-- Claim C5: each harness's process exit status is 0 or 1; the strict
harness exits 0 exactly when every recorded status is PASS; the lenient
harness exits 0 exactly when every `run_test` result is True
(pass-or-skip), and exits 1 exactly when the passed count is strictly
below the total count. -/
theorem harness_exit_status :
    (∀ sts : List CoffStatus,
      (coffExit sts = 0 ∨ coffExit sts = 1) ∧
      (coffExit sts = 0 ↔ ∀ st ∈ sts, st = CoffStatus.pass)) ∧
    (∀ rs : List Bool,
      (lenientExit rs = 0 ∨ lenientExit rs = 1) ∧
      (lenientExit rs = 0 ↔ ∀ b ∈ rs, b = true) ∧
      (lenientExit rs = 1 ↔ (rs.filter (fun b => b)).length < rs.length)) := by
  constructor
  · intro sts
    have hall : (sts.all fun st => st == CoffStatus.pass) = true ↔
        ∀ st ∈ sts, st = CoffStatus.pass := by
      simp [List.all_eq_true]
    by_cases h : ∀ st ∈ sts, st = CoffStatus.pass
    · have he : coffExit sts = 0 := by
        simp only [coffExit, if_pos (hall.mpr h)]
      rw [he]
      exact ⟨Or.inl rfl, fun _ => h, fun _ => rfl⟩
    · have hf : (sts.all fun st => st == CoffStatus.pass) ≠ true :=
        fun hc => h (hall.mp hc)
      have he : coffExit sts = 1 := by
        simp only [coffExit, if_neg hf]
      rw [he]
      exact ⟨Or.inr rfl,
        fun h0 => absurd h0 (by omega), fun hh => absurd hh h⟩
  · intro rs
    by_cases h : (rs.filter (fun b => b)).length < rs.length
    · have hno : ¬ ∀ b ∈ rs, b = true := (lenient_filter_lt rs).mp h
      have he : lenientExit rs = 1 := by
        simp only [lenientExit, if_pos h]
      rw [he]
      exact ⟨Or.inr rfl,
        ⟨fun h0 => absurd h0 (by omega), fun hh => absurd hh hno⟩,
        ⟨fun _ => h, fun _ => rfl⟩⟩
    · have hyes : ∀ b ∈ rs, b = true := by
        by_contra hc
        exact h ((lenient_filter_lt rs).mpr hc)
      have he : lenientExit rs = 0 := by
        simp only [lenientExit, if_neg h]
      rw [he]
      exact ⟨Or.inl rfl,
        ⟨fun _ => hyes, fun _ => rfl⟩,
        ⟨fun h0 => absurd h0 (by omega), fun hh => absurd hh h⟩⟩

/-- Witness for C5: a single PASS gives strict-harness exit 0, and a
single False result gives lenient-harness exit 1. -/
theorem harness_exit_status_witness :
    coffExit [CoffStatus.pass] = 0 ∧ lenientExit [false] = 1 :=
  ⟨((harness_exit_status.1 [CoffStatus.pass]).2).mpr (by simp),
   ((harness_exit_status.2 [false]).2.2).mpr (by simp)⟩

/-- Claim C6: in both harnesses the attempted stages are strictly
increasing in the order Compile < Assemble < Link < Execute; a missing
assembly artifact blocks the assemble stage; an assembler that is missing
or fails blocks the link stage; a linker that is missing or fails blocks
the execute stage; and a missing executable blocks the execute stage. -/
theorem stage_order_monotonic :
    ∀ (cFile : String) (w : AsmWorld) (expected : Int) (wc : CoffWorld),
      List.Chain' (fun a b => a.idx < b.idx) (runTest cFile w).2 ∧
      List.Chain' (fun a b => a.idx < b.idx) (coffRun expected wc).2 ∧
      (w.asmExists = false → StageKind.assemble ∉ (runTest cFile w).2) ∧
      (w.asmToolMissing = true ∨ w.asmExit ≠ 0 →
        StageKind.link ∉ (runTest cFile w).2) ∧
      (w.linkToolMissing = true ∨ w.linkExit ≠ 0 →
        StageKind.execute ∉ (runTest cFile w).2) ∧
      (wc.exeExists = false → StageKind.execute ∉ (coffRun expected wc).2) := by
  intro cFile w expected wc
  refine ⟨?_, ?_, ?_, ?_, ?_, ?_⟩
  · unfold runTest
    repeat' split
    all_goals simp [List.chain'_cons, StageKind.idx]
  · unfold coffRun
    repeat' split
    all_goals simp [List.chain'_cons, StageKind.idx]
  · intro h
    unfold runTest
    repeat' split
    all_goals simp_all
  · intro h
    unfold runTest
    rcases h with h | h <;> (repeat' split) <;> simp_all
  · intro h
    unfold runTest
    rcases h with h | h <;> (repeat' split) <;> simp_all
  · intro h
    unfold coffRun
    repeat' split
    all_goals simp_all

/-- Witness for C6: at a world with no assembly artifact, a missing
assembler and a missing linker, none of assemble, link, execute is
attempted; and with the executable artifact absent the strict harness
does not attempt the execute stage. -/
theorem stage_order_monotonic_witness :
    StageKind.assemble ∉ (runTest "tests/20_switch.c"
      { compilerExit := 0, asmExists := false, asmToolMissing := true,
        asmExit := 1, linkToolMissing := true, linkExit := 1,
        runOSError := false, retCode := 0 }).2 ∧
    StageKind.link ∉ (runTest "tests/20_switch.c"
      { compilerExit := 0, asmExists := false, asmToolMissing := true,
        asmExit := 1, linkToolMissing := true, linkExit := 1,
        runOSError := false, retCode := 0 }).2 ∧
    StageKind.execute ∉ (runTest "tests/20_switch.c"
      { compilerExit := 0, asmExists := false, asmToolMissing := true,
        asmExit := 1, linkToolMissing := true, linkExit := 1,
        runOSError := false, retCode := 0 }).2 ∧
    StageKind.execute ∉ (coffRun 120
      { compExit := 0, exeExists := false, rawStatus := 0 }).2 :=
  ⟨(stage_order_monotonic "tests/20_switch.c"
      { compilerExit := 0, asmExists := false, asmToolMissing := true,
        asmExit := 1, linkToolMissing := true, linkExit := 1,
        runOSError := false, retCode := 0 } 120
      { compExit := 0, exeExists := false, rawStatus := 0 }).2.2.1 rfl,
   (stage_order_monotonic "tests/20_switch.c"
      { compilerExit := 0, asmExists := false, asmToolMissing := true,
        asmExit := 1, linkToolMissing := true, linkExit := 1,
        runOSError := false, retCode := 0 } 120
      { compExit := 0, exeExists := false, rawStatus := 0 }).2.2.2.1
      (Or.inl rfl),
   (stage_order_monotonic "tests/20_switch.c"
      { compilerExit := 0, asmExists := false, asmToolMissing := true,
        asmExit := 1, linkToolMissing := true, linkExit := 1,
        runOSError := false, retCode := 0 } 120
      { compExit := 0, exeExists := false, rawStatus := 0 }).2.2.2.2.1
      (Or.inl rfl),
   (stage_order_monotonic "tests/20_switch.c"
      { compilerExit := 0, asmExists := false, asmToolMissing := true,
        asmExit := 1, linkToolMissing := true, linkExit := 1,
        runOSError := false, retCode := 0 } 120
      { compExit := 0, exeExists := false, rawStatus := 0 }).2.2.2.2.2 rfl⟩

/-- Claim C9: 11_nested_struct.c is whitelisted, its path matches none of
the hard-coded expected-exit-code substrings, and a run of all four
stages returns True whatever exit code the executable reports. -/
theorem nested_struct_no_exit_code_check :
    "11_nested_struct.c" ∈ testWhitelist ∧
    (∀ r ∈ expectedRules,
      strContains "tests/11_nested_struct.c" r.1 = false) ∧
    ∀ (e ret : Int),
      (runTest "tests/11_nested_struct.c"
        { compilerExit := e, asmExists := true, asmToolMissing := false,
          asmExit := 0, linkToolMissing := false, linkExit := 0,
          runOSError := false, retCode := ret }).1 = Except.ok true := by
  refine ⟨by decide, by decide, ?_⟩
  intro e ret
  rfl

/-- Witness for C9: the first hard-coded rule's substring does not occur
in the path of 11_nested_struct.c, and a concrete all-stages run with
exit code 7 still returns True. -/
theorem nested_struct_no_exit_code_check_witness :
    strContains "tests/11_nested_struct.c" "01_return" = false ∧
    (runTest "tests/11_nested_struct.c"
      { compilerExit := 0, asmExists := true, asmToolMissing := false,
        asmExit := 0, linkToolMissing := false, linkExit := 0,
        runOSError := false, retCode := 7 }).1 = Except.ok true :=
  ⟨nested_struct_no_exit_code_check.2.1 ("01_return", 42) (by decide),
   nested_struct_no_exit_code_check.2.2 0 7⟩

/-- Claim C10: when every selected test's world has the assembly artifact
produced and the assembler unresolvable, every `run_test` returns True,
the passed count equals the total count, and the harness exits 0. -/
theorem all_skipped_run_passes :
    ∀ tests : List (String × AsmWorld),
      (∀ t ∈ tests, t.2.asmExists = true ∧ t.2.asmToolMissing = true) →
      asmMain true tests = MainResult.finished (tests.map fun _ => true) 0 := by
  intro tests h
  have hchar : asmLoop tests [] =
      MainResult.finished (tests.map fun _ => true)
        (lenientExit (tests.map fun _ => true)) := by
    have := asmLoop_all_skip tests [] h
    simpa using this
  have hall : ∀ b ∈ tests.map (fun _ => true), b = true := by simp
  have hnlt : ¬ (((tests.map fun _ => true).filter (fun b => b)).length <
      (tests.map fun _ => true).length) :=
    fun hc => ((lenient_filter_lt _).mp hc) hall
  have hex : lenientExit (tests.map fun _ => true) = 0 := by
    simp [lenientExit, hnlt]
  show asmLoop tests [] = MainResult.finished (tests.map fun _ => true) 0
  rw [hchar, hex]

/-- Witness for C10: a run of two tests, both skipped because the
assembler is unresolvable, finishes with two True results and exit 0. -/
theorem all_skipped_run_passes_witness :
    asmMain true
      [("tests/01_return.c",
        { compilerExit := 0, asmExists := true, asmToolMissing := true,
          asmExit := 0, linkToolMissing := false, linkExit := 0,
          runOSError := false, retCode := 42 }),
       ("tests/07_function.c",
        { compilerExit := 0, asmExists := true, asmToolMissing := true,
          asmExit := 0, linkToolMissing := false, linkExit := 0,
          runOSError := false, retCode := 123 })] =
      MainResult.finished [true, true] 0 :=
  all_skipped_run_passes
    [("tests/01_return.c",
      { compilerExit := 0, asmExists := true, asmToolMissing := true,
        asmExit := 0, linkToolMissing := false, linkExit := 0,
        runOSError := false, retCode := 42 }),
     ("tests/07_function.c",
      { compilerExit := 0, asmExists := true, asmToolMissing := true,
        asmExit := 0, linkToolMissing := false, linkExit := 0,
        runOSError := false, retCode := 123 })] (by decide)

end FadorsHarness
